import Mathlib

/-!
Verification model of the `modem-scraper` repository.

The development shallowly embeds the Rust sources:
  * `modem-scraper-lib/src/payloads/s33.rs` — field codecs (duration codec,
    log-line codec, channel-line codec) and the typed response payloads;
  * `modem-scraper-lib/src/lib.rs` — the SOAP/HNAP session client
    (request signing with HMAC-MD5, two-phase login, metrics/logs calls);
  * `src/lib.rs` — the bounded FIFO-evicting dedup structure
    `FixedSizeSortedHashSet`.

Conventions used throughout:
  * Rust strings are Lean `String`s; the codecs work on `String.data`
    (`List Char`).  The regex character classes are modeled over ASCII.
  * Machine integers are `Nat` with explicit `% 2 ^ w` where wrapping
    matters; a failed `parse::<uN>` of a digit string means the value does
    not fit the width.
  * Fallible Rust paths are `Except Failure _`.  A Rust process abort
    (`unwrap` / `expect` / the explicit `panic!` macro) is the
    `Failure.panicked` constructor; a recoverable serde error produced with
    `serde::de::Error::custom` is `Failure.malformedField`.  The two are
    observably different in the source and are kept distinct here.
-/

/-- Failure values of the decoding layer.  `panicked` models a Rust process
abort (`unwrap`/`expect`/explicit panic), `malformedField` models an error
value built with `serde::de::Error::custom`. -/
inductive Failure where
  | panicked (msg : String)
  | malformedField (msg : String)
deriving DecidableEq, Repr

/-- `true` exactly when the outcome is a `malformedField` error. -/
def isMalformedFieldError {α : Type} : Except Failure α → Bool
  | .error (.malformedField _) => true
  | _ => false

/-! ### Character classes (ASCII model of the rust `regex` classes) -/

/-- The regex class `\d` (ASCII model). -/
def isAsciiDigit (c : Char) : Bool :=
  decide (48 ≤ c.toNat ∧ c.toNat ≤ 57)

/-- The regex class `\w` (ASCII model): letters, digits, underscore. -/
def isWordChar (c : Char) : Bool :=
  decide ((65 ≤ c.toNat ∧ c.toNat ≤ 90) ∨ (97 ≤ c.toNat ∧ c.toNat ≤ 122) ∨
    (48 ≤ c.toNat ∧ c.toNat ≤ 57) ∨ c.toNat = 95)

/-- The class `[\w\d ]` of the downstream-channel `modulation` group. -/
def isDownModChar (c : Char) : Bool := isWordChar c || c = ' '

/-- The class `[\w\d -]` of the upstream-channel `modulation` group. -/
def isUpModChar (c : Char) : Bool := isWordChar c || c = ' ' || c = '-'

/-- The class `[\d.]` of the upstream-channel `power` group. -/
def isF64Char (c : Char) : Bool := isAsciiDigit c || c = '.'

/-- The class `[:\d]` of the log-line `time` group. -/
def isTimeChar (c : Char) : Bool := isAsciiDigit c || c = ':'

/-- The class `[/\d]` of the log-line `date` group. -/
def isDateChar (c : Char) : Bool := isAsciiDigit c || c = '/'

/-! ### A tiny matching layer

The patterns used by the source are regexes in which every `+`-quantified
character class is followed by a literal character outside the class, so
leftmost-first matching with backtracking coincides with maximal munch.
Each pattern is embedded as a deterministic matcher at a fixed start
position; `search` reproduces the unanchored leftmost search that
`Regex::captures` / `Regex::is_match` perform. -/

/-- Maximal-munch `+`: the longest nonempty prefix of characters in the
class, or `none` if the first character is not in the class. -/
def munch1 (p : Char → Bool) (cs : List Char) : Option (List Char × List Char) :=
  match cs.takeWhile p with
  | [] => none
  | r => some (r, cs.dropWhile p)

/-- Match a literal sequence of characters. -/
def lit (l : List Char) (cs : List Char) : Option (List Char) :=
  if cs.take l.length = l then some (cs.drop l.length) else none

/-- Match exactly one character of a class (a single-character class item
such as `\d`). -/
def one (p : Char → Bool) (cs : List Char) : Option (Char × List Char) :=
  match cs with
  | [] => none
  | c :: r => if p c then some (c, r) else none

/-- A `+`-quantified class followed by the literal `\^`, the building
block of both channel patterns. -/
def caretGroup (p : Char → Bool) (cs : List Char) : Option (List Char × List Char) :=
  match munch1 p cs with
  | none => none
  | some (g, r) =>
    match lit ['^'] r with
    | none => none
    | some r => some (g, r)

/-- Unanchored leftmost search: try the matcher at position 0, 1, … and
return the first success, as `Regex::captures` does. -/
def search {α : Type} (m : List Char → Option α) : List Char → Option α
  | [] => m []
  | c :: t =>
    match m (c :: t) with
    | some r => some r
    | none => search m t

/-- Decimal value of a digit string (leading zeros allowed, as in
`str::parse`). -/
def digitsToNat (ds : List Char) : Nat :=
  ds.foldl (fun a c => a * 10 + (c.toNat - 48)) 0

/-- `parse::<u8>` on a captured digit string: fails iff the value does not
fit in 8 bits. -/
def parseU8 (ds : List Char) : Option Nat :=
  if digitsToNat ds < 256 then some (digitsToNat ds) else none

/-- `parse::<u32>` on a captured digit string. -/
def parseU32 (ds : List Char) : Option Nat :=
  if digitsToNat ds < 4294967296 then some (digitsToNat ds) else none

/-- `parse::<u64>` on a captured digit string. -/
def parseU64 (ds : List Char) : Option Nat :=
  if digitsToNat ds < 18446744073709551616 then some (digitsToNat ds) else none

/-- `parse::<f64>` validity for a string drawn from the class `[\d.]`:
at most one dot and at least one digit (the grammar of `f64::from_str`
restricted to these characters).  The numeric value is not modeled; the
upstream `power` field keeps the matched text. -/
def validF64 (ds : List Char) : Bool :=
  decide (ds.count '.' ≤ 1) && ds.any isAsciiDigit

/-! ### Duration codec (`duration_deserializer` in `s33.rs`)

Pattern: `(?P<days>\d+) days (?P<hours>\d+)h:(?P<minutes>\d+)m:(?P<seconds>\d+)s`,
searched unanchored; on no match the Rust code calls `.unwrap()` on the
`captures` option (an abort), and the four groups are `parse::<u64>`-ed with
`.expect`/`.unwrap` (an abort on overflow).  The seconds count is computed
in `u64` arithmetic (wrapping model, `% 2^64`). -/

/-- The duration pattern tried at one start position; yields the four
captured digit strings. -/
def durationMatchAt (cs : List Char) : Option (List Char × List Char × List Char × List Char) := do
  let (d, r) ← munch1 isAsciiDigit cs
  let r ← lit " days ".data r
  let (h, r) ← munch1 isAsciiDigit r
  let r ← lit "h:".data r
  let (m, r) ← munch1 isAsciiDigit r
  let r ← lit "m:".data r
  let (s, r) ← munch1 isAsciiDigit r
  let _ ← lit "s".data r
  pure (d, h, m, s)

/-- `duration_deserializer`: seconds = `days*24*60*60 + hours*60*60 +
minutes*60 + seconds` (u64).  No match, or a component not fitting `u64`,
aborts the process (`Failure.panicked`). -/
def duration_deserializer (s : String) : Except Failure Nat :=
  match search durationMatchAt s.data with
  | none => .error (.panicked "called Option::unwrap on a None value")
  | some (d, h, m, sec) =>
    match parseU64 d, parseU64 h, parseU64 m, parseU64 sec with
    | some days, some hours, some minutes, some seconds =>
      .ok ((days * 24 * 60 * 60 + hours * 60 * 60 + minutes * 60 + seconds) % 18446744073709551616)
    | _, _, _, _ => .error (.panicked "unable to convert captured component to a u64")

/-! ### Channel-line codec (`channel_parser` in `s33.rs`) -/

/-- `Modulation` (a closed enumeration in the source). -/
inductive Modulation where
  | qam256
  | ofdmplc
  | scqam
  | unknown
deriving DecidableEq, Repr

/-- The `modulation` token map of `channel_parser`. -/
def modulationOf (t : List Char) : Modulation :=
  if t = "QAM256".data then .qam256
  else if t = "OFDM PLC".data then .ofdmplc
  else if t = "SC-QAM".data then .scqam
  else .unknown

/-- The `lock_status` token map of `channel_parser`:
`matches!(s, "Locked")`. -/
def lockOf (t : List Char) : Bool := t = "Locked".data

/-- Captures of `DOWNSTREAM_CHANNEL_PATTERN`. -/
structure DownCaps where
  lock_status : List Char
  modulation : List Char
  channel_id : List Char
  frequency : List Char
  power : List Char
  snr : List Char
  corrected : List Char
  uncorrectables : List Char
deriving DecidableEq, Repr

/-- Captures of `UPSTREAM_CHANNEL_REGEX`. -/
structure UpCaps where
  lock_status : List Char
  modulation : List Char
  channel_id : List Char
  width : List Char
  frequency : List Char
  power : List Char
deriving DecidableEq, Repr

/-- `DOWNSTREAM_CHANNEL_PATTERN` =
`(?:\d+)\^(?P<lock_status>\w+)\^(?P<modulation>[\w\d ]+)\^(?P<channel_id>\d+)\^(?P<frequency>\d+)\^(?P<power>\d+)\^(?P<snr>\d+)\^(?P<corrected>\d+)\^(?P<uncorrectables>\d+)\^`
tried at one start position. -/
def downstreamMatchAt (cs : List Char) : Option DownCaps := do
  let (_, r) ← caretGroup isAsciiDigit cs
  let (lock, r) ← caretGroup isWordChar r
  let (md, r) ← caretGroup isDownModChar r
  let (cid, r) ← caretGroup isAsciiDigit r
  let (freq, r) ← caretGroup isAsciiDigit r
  let (pw, r) ← caretGroup isAsciiDigit r
  let (snr, r) ← caretGroup isAsciiDigit r
  let (corr, r) ← caretGroup isAsciiDigit r
  let (unc, _) ← caretGroup isAsciiDigit r
  pure (DownCaps.mk lock md cid freq pw snr corr unc)

/-- `UPSTREAM_CHANNEL_REGEX` =
`(?:\d+)\^(?P<lock_status>\w+)\^(?P<modulation>[\w\d -]+)\^(?P<channel_id>\d+)\^(?P<width>\d+)\^(?P<frequency>\d+)\^(?P<power>[\d.]+)\^`
tried at one start position. -/
def upstreamMatchAt (cs : List Char) : Option UpCaps := do
  let (_, r) ← caretGroup isAsciiDigit cs
  let (lock, r) ← caretGroup isWordChar r
  let (md, r) ← caretGroup isUpModChar r
  let (cid, r) ← caretGroup isAsciiDigit r
  let (w, r) ← caretGroup isAsciiDigit r
  let (freq, r) ← caretGroup isAsciiDigit r
  let (pw, _) ← caretGroup isF64Char r
  pure (UpCaps.mk lock md cid w freq pw)

/-- `DownstreamChannel` record (u8/u32 fields are `Nat`s validated by the
corresponding `parse`). -/
structure DownstreamChannel where
  channel_id : Nat
  modulation : Modulation
  lock_status : Bool
  frequency : Nat
  power : Nat
  snr : Nat
  corrected : Nat
  uncorrectables : Nat
deriving DecidableEq, Repr

/-- `UpstreamChannel` record; `power` keeps the matched `[\d.]+` text (the
`f64` value itself is not modeled). -/
structure UpstreamChannel where
  channel_id : Nat
  modulation : Modulation
  lock_status : Bool
  frequency : Nat
  width : Nat
  power : List Char
deriving DecidableEq, Repr

/-- The `Channel` sum type. -/
inductive Channel where
  | downstream (c : DownstreamChannel)
  | upstream (c : UpstreamChannel)
deriving DecidableEq, Repr

/-- Decode one `|+|`-separated record: try the downstream grammar first,
then the upstream one; a record matching neither is a `MalformedField`
error naming the record text; numeric sub-field parse failures abort
(`unwrap`). -/
def channelLineDecode (line : List Char) : Except Failure Channel :=
  match search downstreamMatchAt line with
  | some caps =>
    match parseU8 caps.channel_id, parseU32 caps.frequency, parseU8 caps.power,
        parseU8 caps.snr, parseU32 caps.corrected, parseU32 caps.uncorrectables with
    | some cid, some freq, some pw, some snr, some corr, some unc =>
      .ok (.downstream ⟨cid, modulationOf caps.modulation, lockOf caps.lock_status,
        freq, pw, snr, corr, unc⟩)
    | _, _, _, _, _, _ => .error (.panicked "called Result::unwrap on an Err value")
  | none =>
    match search upstreamMatchAt line with
    | some caps =>
      match parseU8 caps.channel_id, parseU32 caps.width, parseU32 caps.frequency with
      | some cid, some w, some freq =>
        if validF64 caps.power then
          .ok (.upstream ⟨cid, modulationOf caps.modulation, lockOf caps.lock_status,
            freq, w, caps.power⟩)
        else .error (.panicked "called Result::unwrap on an Err value")
      | _, _, _ => .error (.panicked "called Result::unwrap on an Err value")
    | none =>
      .error (.malformedField ("Unable to match " ++ String.mk line ++ " with any channel regex"))

/-- `str::split` on the literal `"|+|"` (leftmost, non-overlapping). -/
def channelSplit : List Char → List (List Char)
  | [] => [[]]
  | '|' :: '+' :: '|' :: rest => [] :: channelSplit rest
  | c :: rest =>
    match channelSplit rest with
    | [] => [[c]]
    | r :: rs => (c :: r) :: rs

/-- Sequence a decoding function over records, stopping at the first
failure (the Rust loop returns the error for the first bad record). -/
def mapExcept {ε α β : Type} (f : α → Except ε β) : List α → Except ε (List β)
  | [] => .ok []
  | x :: xs =>
    match f x with
    | .error e => .error e
    | .ok b =>
      match mapExcept f xs with
      | .error e => .error e
      | .ok bs => .ok (b :: bs)

/-- `channel_parser`: split the raw value on `"|+|"` and decode every
record. -/
def channel_parser_model (s : String) : Except Failure (List Channel) :=
  mapExcept channelLineDecode (channelSplit s.data)

/-! ### Log-line codec (`log_parser` in `s33.rs`) -/

/-- `log::Level` of the `log` crate. -/
inductive Level where
  | error
  | warn
  | info
  | debug
  | trace
deriving DecidableEq, Repr

/-- The level-digit map of `log_parser`: `3→Error, 4→Warn, 5→Info,
6→Debug`, anything else `Error`. -/
def levelOfDigit (n : Nat) : Level :=
  if n = 3 then .error
  else if n = 4 then .warn
  else if n = 5 then .info
  else if n = 6 then .debug
  else .error

/-- A `chrono` naive date-time reinterpreted as UTC
(`DateTime::<Utc>::from_local(_, Utc)`). -/
structure UtcDateTime where
  year : Nat
  month : Nat
  day : Nat
  hour : Nat
  minute : Nat
  second : Nat
deriving DecidableEq, Repr

/-- Gregorian month length, for `chrono`'s calendar validation. -/
def daysInMonth (year month : Nat) : Nat :=
  if month = 2 then
    if (year % 4 = 0 ∧ year % 100 ≠ 0) ∨ year % 400 = 0 then 29 else 28
  else if month = 4 ∨ month = 6 ∨ month = 9 ∨ month = 11 then 30
  else 31

/-- A numeric field of a `chrono` format string: up to `maxw` digits, at
least one. -/
def numField (maxw : Nat) (cs : List Char) : Option (Nat × List Char) :=
  let ds := (cs.takeWhile isAsciiDigit).take maxw
  if ds = [] then none else some (digitsToNat ds, cs.drop ds.length)

/-- A numeric field of width `maxw` followed by a literal separator. -/
def numFieldSep (maxw : Nat) (sep : Char) (cs : List Char) : Option (Nat × List Char) :=
  match numField maxw cs with
  | none => none
  | some (n, r) =>
    match lit [sep] r with
    | none => none
    | some r => some (n, r)

/-- `NaiveDateTime::parse_from_str(_, "%d/%m/%Y %T")` with the whole input
consumed and calendar validation.  (chrono's leap-second tolerance in `%S`
is not modeled; no claim depends on it.) -/
def parseDateTime (cs : List Char) : Option UtcDateTime := do
  let (day, r) ← numFieldSep 2 '/' cs
  let (month, r) ← numFieldSep 2 '/' r
  let (year, r) ← numFieldSep 4 ' ' r
  let (hour, r) ← numFieldSep 2 ':' r
  let (minute, r) ← numFieldSep 2 ':' r
  let (second, r) ← numField 2 r
  if r = [] ∧ 1 ≤ month ∧ month ≤ 12 ∧ 1 ≤ day ∧ day ≤ daysInMonth year month ∧
      hour ≤ 23 ∧ minute ≤ 59 ∧ second ≤ 59 then
    pure (UtcDateTime.mk year month day hour minute second)
  else none

/-- One decoded log record. -/
structure LogEntry where
  timestamp : UtcDateTime
  level : Level
  message : String
deriving DecidableEq, Repr

/-- The log-record pattern
`0\^(?P<time>[:\d]+)\^(?P<date>[/\d]+)\^(?P<level>\d)\^(?P<message>.*)`
tried at one start position (`.` matches anything but a newline). -/
def logLineMatchAt (cs : List Char) : Option (List Char × List Char × Char × List Char) := do
  let r ← lit ['0', '^'] cs
  let (t, r) ← caretGroup isTimeChar r
  let (d, r) ← caretGroup isDateChar r
  let (lvl, r) ← one isAsciiDigit r
  let r ← lit ['^'] r
  pure (t, d, lvl, r.takeWhile (fun c => c ≠ '\n'))

/-- Decode one `"}-{"`-separated record: search the pattern (no match is
the explicit panic naming the record), build the timestamp from
`date ++ " " ++ time`, map the level digit. -/
def logLineDecode (line : List Char) : Except Failure LogEntry :=
  match search logLineMatchAt line with
  | none => .error (.panicked ("Unable to parse: " ++ String.mk line))
  | some (t, d, lvl, msg) =>
    match parseDateTime (d ++ [' '] ++ t) with
    | none => .error (.panicked "called Result::unwrap on an Err value")
    | some ts => .ok ⟨ts, levelOfDigit (lvl.toNat - 48), String.mk msg⟩

/-- `str::split` on the literal `"}-{"` (leftmost, non-overlapping). -/
def logSplit : List Char → List (List Char)
  | [] => [[]]
  | '\x7d' :: '-' :: '\x7b' :: rest => [] :: logSplit rest
  | c :: rest =>
    match logSplit rest with
    | [] => [[c]]
    | r :: rs => (c :: r) :: rs

/-- `log_parser`: split the raw value on `"}-{"` and decode every
record. -/
def log_parser_model (s : String) : Except Failure (List LogEntry) :=
  mapExcept logLineDecode (logSplit s.data)

/-! ### The bounded dedup structure (`FixedSizeSortedHashSet` in `src/lib.rs`)

The `HashSet` is a `Finset`, the `VecDeque` a `List` whose head is the
front.  `pop_front` panics when the popped element is missing from the
hash set; a panic is the `none` result of an operation. -/

/-- `FixedSizeSortedHashSet<T>`: membership index, FIFO order queue, and
the construction-time capacity. -/
structure FixedSizeSortedHashSet (α : Type) where
  hash_set : Finset α
  deque : List α
  capacity : Nat

namespace FixedSizeSortedHashSet

variable {α : Type} [DecidableEq α]

/-- `with_capacity`: empty structure. -/
def with_capacity (capacity : Nat) : FixedSizeSortedHashSet α :=
  ⟨∅, [], capacity⟩

/-- `contains`: O(1) membership test on the hash set. -/
def contains (s : FixedSizeSortedHashSet α) (value : α) : Bool :=
  decide (value ∈ s.hash_set)

/-- `pop_front`: pop the deque's front and remove it from the hash set;
if the popped element was not in the hash set the source panics (`none`
here).  An empty deque yields `some (none, s)`. -/
def pop_front (s : FixedSizeSortedHashSet α) :
    Option (Option α × FixedSizeSortedHashSet α) :=
  match s.deque with
  | [] => some (none, s)
  | i :: rest =>
    if i ∈ s.hash_set then some (some i, ⟨s.hash_set.erase i, rest, s.capacity⟩)
    else none

/-- `insert`: when `deque.len() + 1 >= capacity` first `pop_front` (whose
result is returned to the caller), then push the value at the back of the
deque and into the hash set. -/
def insert (s : FixedSizeSortedHashSet α) (value : α) :
    Option (Option α × FixedSizeSortedHashSet α) :=
  match (if s.deque.length + 1 ≥ s.capacity then s.pop_front else some (none, s)) with
  | none => none
  | some (popped_value, s1) =>
    some (popped_value, ⟨Insert.insert value s1.hash_set, s1.deque ++ [value], s1.capacity⟩)

end FixedSizeSortedHashSet

/-- An operation of the dedup-set interface. -/
inductive DedupOp (α : Type) where
  | query (v : α)
  | insert (v : α)
  | popOldest
deriving DecidableEq, Repr

/-- The set of values a sequence of operations inserts, in order. -/
def insertsOf {α : Type} : List (DedupOp α) → List α :=
  List.filterMap fun op =>
    match op with
    | .insert v => some v
    | _ => none

/-- Run one operation (`contains` reads, `insert`/`popOldest` update);
`none` is a panic. -/
def dedupStep {α : Type} [DecidableEq α] (op : DedupOp α)
    (s : FixedSizeSortedHashSet α) : Option (FixedSizeSortedHashSet α) :=
  match op with
  | .query _ => some s
  | .insert v => (s.insert v).map Prod.snd
  | .popOldest => s.pop_front.map Prod.snd

/-- Run a sequence of operations, stopping at a panic. -/
def dedupRun {α : Type} [DecidableEq α] :
    List (DedupOp α) → FixedSizeSortedHashSet α → Option (FixedSizeSortedHashSet α)
  | [], s => some s
  | op :: ops, s =>
    match dedupStep op s with
    | none => none
    | some s1 => dedupRun ops s1

/-- The two indices agree: the hash set holds exactly the deque's
elements, and the deque has no duplicates. -/
def Synced {α : Type} [DecidableEq α] (s : FixedSizeSortedHashSet α) : Prop :=
  s.hash_set = s.deque.toFinset ∧ s.deque.Nodup

/-- The deque evolution of one `insert`: drop the front when
`len + 1 ≥ capacity`, then push at the back. -/
def dequeStep {α : Type} (capacity : Nat) (d : List α) (v : α) : List α :=
  (if d.length + 1 ≥ capacity then d.tail else d) ++ [v]

/-- Iterated `dequeStep`. -/
def dequeRun {α : Type} (capacity : Nat) : List α → List α → List α
  | d, [] => d
  | d, v :: vs => dequeRun capacity (dequeStep capacity d v) vs

/-! ### HMAC-MD5 and the SOAP/HNAP session client (`modem-scraper-lib/src/lib.rs`)

MD5 (RFC 1321) and HMAC (RFC 2104) are the algorithms behind the `md5`
and `hmac` crates the source uses.  Bytes are `Nat`s below 256; 32-bit
words are `Nat`s reduced `% 2^32`. -/

/-- Rotate a 32-bit word left by `s` bits. -/
def rotl32 (x s : Nat) : Nat :=
  (x * 2 ^ s) % 4294967296 + x / 2 ^ (32 - s)

/-- 32-bit complement. -/
def not32 (x : Nat) : Nat := 4294967295 - x

/-- The 64 MD5 sine-table constants `K`. -/
def md5K : List Nat :=
  [0xd76aa478, 0xe8c7b756, 0x242070db, 0xc1bdceee,
   0xf57c0faf, 0x4787c62a, 0xa8304613, 0xfd469501,
   0x698098d8, 0x8b44f7af, 0xffff5bb1, 0x895cd7be,
   0x6b901122, 0xfd987193, 0xa679438e, 0x49b40821,
   0xf61e2562, 0xc040b340, 0x265e5a51, 0xe9b6c7aa,
   0xd62f105d, 0x02441453, 0xd8a1e681, 0xe7d3fbc8,
   0x21e1cde6, 0xc33707d6, 0xf4d50d87, 0x455a14ed,
   0xa9e3e905, 0xfcefa3f8, 0x676f02d9, 0x8d2a4c8a,
   0xfffa3942, 0x8771f681, 0x6d9d6122, 0xfde5380c,
   0xa4beea44, 0x4bdecfa9, 0xf6bb4b60, 0xbebfbc70,
   0x289b7ec6, 0xeaa127fa, 0xd4ef3085, 0x04881d05,
   0xd9d4d039, 0xe6db99e5, 0x1fa27cf8, 0xc4ac5665,
   0xf4292244, 0x432aff97, 0xab9423a7, 0xfc93a039,
   0x655b59c3, 0x8f0ccc92, 0xffeff47d, 0x85845dd1,
   0x6fa87e4f, 0xfe2ce6e0, 0xa3014314, 0x4e0811a1,
   0xf7537e82, 0xbd3af235, 0x2ad7d2bb, 0xeb86d391]

/-- The 64 MD5 per-operation shift amounts `S`. -/
def md5S : List Nat :=
  [7, 12, 17, 22, 7, 12, 17, 22, 7, 12, 17, 22, 7, 12, 17, 22,
   5, 9, 14, 20, 5, 9, 14, 20, 5, 9, 14, 20, 5, 9, 14, 20,
   4, 11, 16, 23, 4, 11, 16, 23, 4, 11, 16, 23, 4, 11, 16, 23,
   6, 10, 15, 21, 6, 10, 15, 21, 6, 10, 15, 21, 6, 10, 15, 21]

/-- `n` little-endian bytes of `x`. -/
def toLEBytes (n x : Nat) : List Nat :=
  (List.range n).map fun i => x / 2 ^ (8 * i) % 256

/-- A 32-bit word from four little-endian bytes. -/
def leWord (bs : List Nat) : Nat :=
  bs.getD 0 0 + bs.getD 1 0 * 256 + bs.getD 2 0 * 65536 + bs.getD 3 0 * 16777216

/-- One MD5 operation (index `i`) on the working state. -/
def md5Op (M : List Nat) (i : Nat) (st : Nat × Nat × Nat × Nat) : Nat × Nat × Nat × Nat :=
  let (a, b, c, d) := st
  let f :=
    if i < 16 then (b &&& c) ||| (not32 b &&& d)
    else if i < 32 then (b &&& d) ||| (c &&& not32 d)
    else if i < 48 then b ^^^ c ^^^ d
    else c ^^^ (b ||| not32 d)
  let g :=
    if i < 16 then i
    else if i < 32 then (5 * i + 1) % 16
    else if i < 48 then (3 * i + 5) % 16
    else 7 * i % 16
  let f1 := (f + a + md5K.getD i 0 + M.getD g 0) % 4294967296
  (d, (b + rotl32 f1 (md5S.getD i 0)) % 4294967296, b, c)

/-- Compress one 64-byte block into the state. -/
def md5Compress (st : Nat × Nat × Nat × Nat) (block : List Nat) : Nat × Nat × Nat × Nat :=
  let M := (List.range 16).map fun j => leWord ((block.drop (4 * j)).take 4)
  let (a, b, c, d) := (List.range 64).foldl (fun s i => md5Op M i s) st
  let (a0, b0, c0, d0) := st
  ((a0 + a) % 4294967296, (b0 + b) % 4294967296, (c0 + c) % 4294967296, (d0 + d) % 4294967296)

/-- MD5 padding: `0x80`, zeros to 56 mod 64, then the bit length as eight
little-endian bytes. -/
def md5Pad (msg : List Nat) : List Nat :=
  msg ++ [128] ++ List.replicate ((56 + 64 - (msg.length + 1) % 64) % 64) 0 ++
    toLEBytes 8 (msg.length * 8 % 18446744073709551616)

/-- Fold the compression function over `n` 64-byte blocks. -/
def md5Blocks : Nat → List Nat → Nat × Nat × Nat × Nat → Nat × Nat × Nat × Nat
  | 0, _, st => st
  | n + 1, bytes, st => md5Blocks n (bytes.drop 64) (md5Compress st (bytes.take 64))

/-- MD5 digest (16 bytes) of a byte string. -/
def md5 (msg : List Nat) : List Nat :=
  let padded := md5Pad msg
  let st := md5Blocks (padded.length / 64) padded (0x67452301, 0xefcdab89, 0x98badcfe, 0x10325476)
  toLEBytes 4 st.1 ++ toLEBytes 4 st.2.1 ++ toLEBytes 4 st.2.2.1 ++ toLEBytes 4 st.2.2.2

/-- HMAC-MD5 (RFC 2104, block size 64). -/
def hmacMd5 (key msg : List Nat) : List Nat :=
  let k0 := if 64 < key.length then md5 key else key
  let k := k0 ++ List.replicate (64 - k0.length) 0
  md5 ((k.map fun b => b ^^^ 92) ++ md5 ((k.map fun b => b ^^^ 54) ++ msg))

/-- One uppercase hexadecimal digit. -/
def hexDigit (n : Nat) : Char :=
  if n < 10 then Char.ofNat (48 + n) else Char.ofNat (55 + n)

/-- `hex::encode_upper`. -/
def hexEncodeUpper (bs : List Nat) : String :=
  String.mk ((bs.map fun b => [hexDigit (b / 16), hexDigit (b % 16)]).flatten)

/-- UTF-8 encoding of one character. -/
def charUtf8 (c : Char) : List Nat :=
  let n := c.toNat
  if n < 128 then [n]
  else if n < 2048 then [192 + n / 64, 128 + n % 64]
  else if n < 65536 then [224 + n / 4096, 128 + n / 64 % 64, 128 + n % 64]
  else [240 + n / 262144, 128 + n / 4096 % 64, 128 + n / 64 % 64, 128 + n % 64]

/-- `str::as_bytes`: the UTF-8 bytes of a string. -/
def strBytes (s : String) : List Nat :=
  (s.data.map charUtf8).flatten

/-- `hex_hmac_md5`: uppercase hex of HMAC-MD5 of `data` keyed by `key`
(both given as strings, hashed over their UTF-8 bytes, exactly as the
`as_bytes` call sites do). -/
def hex_hmac_md5 (key data : String) : String :=
  hexEncodeUpper (hmacMd5 (strBytes key) (strBytes data))

/-- `UNDEFINED_PRIVATE_KEY`. -/
def UNDEFINED_PRIVATE_KEY : String := "withoutloginkey"

/-- `SOAP_DOMAIN`. -/
def SOAP_DOMAIN : String := "http://purenetworks.com/HNAP1/"

/-- The session state of `SOAPClient` (the reqwest transport handle is an
external collaborator and is not modeled). -/
structure SOAPClient where
  endpoint : String
  private_key : String
  cookie : String
deriving DecidableEq, Repr

/-- `SOAPClient::new`. -/
def SOAPClient.new (endpoint : String) : SOAPClient :=
  ⟨endpoint, UNDEFINED_PRIVATE_KEY, ""⟩

/-- The observable outgoing request of `send_soap_action`: the POST
target, the `SOAPAction` header, the `HNAP_AUTH` header, the `Cookie`
header, and the JSON body `{ action: { params } }` (the parameter map is
an association list standing for the `HashMap`). -/
structure SoapRequest where
  endpoint : String
  soapActionHeader : String
  hnapAuth : String
  cookieHeader : String
  body : String × List (String × String)
deriving DecidableEq, Repr

/-- The `HasResult` trait: every concrete response exposes its
`<Action>Result` status string. -/
class HasResult (T : Type) where
  get_result : T → String

/-- `send_soap_action<T>`: build the signed request from the current
session state, the epoch-millis timestamp, the action and its parameters;
the call fails on a non-200 HTTP status, or when the decoded reply's
status string is `"ERROR"`; otherwise it returns the typed reply.  The
session state is returned unchanged (the source never assigns to `self`
here).  JSON-decode failures abort the process in the source
(`unwrap_or_log`) and are not modeled. -/
def send_soap_action {T : Type} [HasResult T] (client : SOAPClient) (time : Nat)
    (action : String) (additional_params : List (String × String))
    (httpStatus : Nat) (reply : T) :
    SOAPClient × SoapRequest × Except String T :=
  let current_time := toString time
  let soap_action_uri := SOAP_DOMAIN ++ action
  let message := current_time ++ soap_action_uri
  let auth := hex_hmac_md5 client.private_key message ++ " " ++ current_time
  let req : SoapRequest :=
    ⟨client.endpoint, SOAP_DOMAIN ++ action, auth,
      "Secure; uid=" ++ client.cookie ++ "; PrivateKey=" ++ client.private_key,
      (action, additional_params)⟩
  (client, req,
    if httpStatus ≠ 200 then .error "Modem did not return 200 OK, dumped response to log"
    else if HasResult.get_result reply = "ERROR" then
      .error "JSON said there was an ERROR, aborting"
    else .ok reply)

/-- `LoginWithChallengeResponse` (phase-2 reply). -/
structure LoginWithChallengeResponse where
  result : String
deriving DecidableEq, Repr

instance : HasResult LoginWithChallengeResponse := ⟨LoginWithChallengeResponse.result⟩

/-- `LoginResponse` (phase-1 reply with the challenge material). -/
structure LoginResponse where
  public_key : String
  challenge : String
  cookie : String
  result : String
deriving DecidableEq, Repr

instance : HasResult LoginResponse := ⟨LoginResponse.result⟩

/-- `login_with_challenge`: store the phase-1 cookie, derive and store the
session private key `HMAC-MD5(key = public_key ++ password, msg =
challenge)`, compute `login_password = HMAC-MD5(key = private_key, msg =
challenge)`, send the credentialed `Login` action signed with the updated
session state, and dispatch on the reply status.  A send-level failure
aborts in the source (`expect`); it is the first error branch here. -/
def login_with_challenge (client : SOAPClient) (username password public_key challenge cookie : String)
    (time httpStatus : Nat) (reply : LoginWithChallengeResponse) :
    SOAPClient × SoapRequest × Except String LoginWithChallengeResponse :=
  let client := { client with cookie := cookie }
  let private_key := hex_hmac_md5 (public_key ++ password) challenge
  let client := { client with private_key := private_key }
  let login_password := hex_hmac_md5 client.private_key challenge
  let request_hashmap :=
    [("Action", "login"), ("Username", username), ("LoginPassword", login_password),
     ("Captcha", ""), ("PrivateLogin", "LoginPassword")]
  let sent := send_soap_action client time "Login" request_hashmap httpStatus reply
  (sent.1, sent.2.1,
    match sent.2.2 with
    | .error _ => .error "Unable to login with calculated credentials"
    | .ok login_response =>
      if login_response.result = "OK_CHANGED" then
        .error "May need to reset login settings, idk haven't actually hit this"
      else if login_response.result = "FAILED" then .error "Username or password error"
      else if login_response.result = "LOCKUP" then .error "Max number of login attempts reached"
      else if login_response.result = "REBOOT" then
        .error "Account locked, reboot required to re-enable account"
      else if login_response.result = "OK" then .ok login_response
      else .error "Unknown response from modem")

/-- `StatusStartupSequenceResponse`. -/
structure StatusStartupSequenceResponse where
  customer_conn_d_s_freq : String
  customer_conn_d_s_comment : String
  customer_conn_connectivity_status : String
  customer_conn_connectivity_comment : String
  customer_conn_boot_status : String
  customer_conn_boot_comment : String
  customer_conn_configuration_file_status : String
  customer_conn_configuration_file_comment : String
  customer_conn_security_status : String
  customer_conn_security_comment : String
  result : String
deriving DecidableEq, Repr

instance : HasResult StatusStartupSequenceResponse := ⟨StatusStartupSequenceResponse.result⟩

/-- `StatusConnectionInfoResponse` (uptime through the duration codec,
system time through the timestamp codec). -/
structure StatusConnectionInfoResponse where
  customer_conn_system_up_time : Nat
  customer_cur_system_time : UtcDateTime
  customer_conn_network_access : String
  result : String
deriving DecidableEq, Repr

instance : HasResult StatusConnectionInfoResponse := ⟨StatusConnectionInfoResponse.result⟩

/-- `ArrisDeviceStatusResponse`. -/
structure ArrisDeviceStatusResponse where
  firmware_version : String
  internet_connection : String
  downstream_frequency : String
  downstream_signal_power : String
  downstream_signal_snr : String
  result : String
deriving DecidableEq, Repr

instance : HasResult ArrisDeviceStatusResponse := ⟨ArrisDeviceStatusResponse.result⟩

/-- `ArrisRegisterInfoResponse`. -/
structure ArrisRegisterInfoResponse where
  mac_address : String
  serial_number : String
  model_name : String
  result : String
deriving DecidableEq, Repr

instance : HasResult ArrisRegisterInfoResponse := ⟨ArrisRegisterInfoResponse.result⟩

/-- `StatusDownstreamChannelInfo` (channel list through the channel
codec). -/
structure StatusDownstreamChannelInfo where
  customer_conn_downstream_channel : List Channel
  result : String
deriving DecidableEq, Repr

instance : HasResult StatusDownstreamChannelInfo := ⟨StatusDownstreamChannelInfo.result⟩

/-- `StatusUpstreamChannelInfo`. -/
structure StatusUpstreamChannelInfo where
  customer_conn_upstream_channel : List Channel
  result : String
deriving DecidableEq, Repr

instance : HasResult StatusUpstreamChannelInfo := ⟨StatusUpstreamChannelInfo.result⟩

/-- `GetMultipleHNAPsMetricsResponse`. -/
structure GetMultipleHNAPsMetricsResponse where
  get_arris_device_status_response : ArrisDeviceStatusResponse
  get_arris_register_info_response : ArrisRegisterInfoResponse
  get_customer_status_connection_info_response : StatusConnectionInfoResponse
  get_customer_status_downstream_channel_info_response : StatusDownstreamChannelInfo
  get_customer_status_upstream_channel_info_response : StatusUpstreamChannelInfo
  get_customer_status_startup_sequence_response : StatusStartupSequenceResponse
  result : String
deriving DecidableEq, Repr

instance : HasResult GetMultipleHNAPsMetricsResponse := ⟨GetMultipleHNAPsMetricsResponse.result⟩

/-- `StatusLogResponse` (log list through the log codec). -/
structure StatusLogResponse where
  customer_status_log_list : List LogEntry
  result : String
deriving DecidableEq, Repr

instance : HasResult StatusLogResponse := ⟨StatusLogResponse.result⟩

/-- `GetMultipleHNAPsLogsResponse`. -/
structure GetMultipleHNAPsLogsResponse where
  get_customer_status_log_response : StatusLogResponse
  result : String
deriving DecidableEq, Repr

instance : HasResult GetMultipleHNAPsLogsResponse := ⟨GetMultipleHNAPsLogsResponse.result⟩

/-- `metrics()`: one `GetMultipleHNAPs` action carrying the six fixed
sub-action names. -/
def metrics (client : SOAPClient) (time httpStatus : Nat)
    (reply : GetMultipleHNAPsMetricsResponse) :
    SOAPClient × SoapRequest × Except String GetMultipleHNAPsMetricsResponse :=
  send_soap_action client time "GetMultipleHNAPs"
    [("GetArrisDeviceStatus", ""), ("GetArrisRegisterInfo", ""),
     ("GetCustomerStatusStartupSequence", ""), ("GetCustomerStatusConnectionInfo", ""),
     ("GetCustomerStatusDownstreamChannelInfo", ""), ("GetCustomerStatusUpstreamChannelInfo", "")]
    httpStatus reply

/-- `logs()`: the analogous `GetMultipleHNAPs` call for the log
sub-actions. -/
def logs (client : SOAPClient) (time httpStatus : Nat)
    (reply : GetMultipleHNAPsLogsResponse) :
    SOAPClient × SoapRequest × Except String GetMultipleHNAPsLogsResponse :=
  send_soap_action client time "GetMultipleHNAPs"
    [("GetCustomerStatusLog", ""), ("GetCustomerStatusLogXXX", "")]
    httpStatus reply

/-! ## Lemmas and claim theorems -/

/-! ### Generic list/matching lemmas -/

theorem takeWhile_append_exact {p : Char → Bool} :
    ∀ (xs ys : List Char), (∀ x ∈ xs, p x = true) → (∀ y, ys.head? = some y → p y = false) →
      (xs ++ ys).takeWhile p = xs ∧ (xs ++ ys).dropWhile p = ys := by
  intro xs
  induction xs with
  | nil =>
    intro ys _ hy
    cases ys with
    | nil => simp
    | cons y t =>
      have h := hy y rfl
      simp [List.takeWhile_cons_of_neg, List.dropWhile_cons_of_neg, h]
  | cons x xs ih =>
    intro ys hall hy
    have hx : p x = true := hall x (List.mem_cons_self x xs)
    obtain ⟨h1, h2⟩ := ih ys (fun a ha => hall a (List.mem_cons_of_mem x ha)) hy
    constructor
    · rw [List.cons_append, List.takeWhile_cons_of_pos hx, h1]
    · rw [List.cons_append, List.dropWhile_cons_of_pos hx, h2]

theorem munch1_exact {p : Char → Bool} {xs ys : List Char} (hne : xs ≠ [])
    (hall : ∀ x ∈ xs, p x = true) (hy : ∀ y, ys.head? = some y → p y = false) :
    munch1 p (xs ++ ys) = some (xs, ys) := by
  obtain ⟨h1, h2⟩ := takeWhile_append_exact xs ys hall hy
  cases xs with
  | nil => exact absurd rfl hne
  | cons x t => simp only [munch1, h1, h2]

theorem lit_exact (l r : List Char) : lit l (l ++ r) = some r := by
  simp [lit, List.take_left, List.drop_left]

theorem caretGroup_exact {p : Char → Bool} {xs ys : List Char} (hp : p '^' = false)
    (hne : xs ≠ []) (hall : ∀ x ∈ xs, p x = true) :
    caretGroup p (xs ++ ('^' :: ys)) = some (xs, ys) := by
  have h1 : munch1 p (xs ++ ('^' :: ys)) = some (xs, '^' :: ys) :=
    munch1_exact hne hall (by intro y h; cases h; exact hp)
  have h2 : lit ['^'] ('^' :: ys) = some ys := lit_exact ['^'] ys
  simp only [caretGroup, h1, h2]

theorem search_of_matchAt {α : Type} (m : List Char → Option α) :
    ∀ (cs : List Char) (r : α), m cs = some r → search m cs = some r := by
  intro cs r h
  cases cs <;> simp [search, h]

/-! ### Dedup-set lemmas -/

theorem synced_with_capacity {α : Type} [DecidableEq α] (C : Nat) :
    Synced (FixedSizeSortedHashSet.with_capacity C : FixedSizeSortedHashSet α) := by
  constructor <;> simp [FixedSizeSortedHashSet.with_capacity]

theorem toFinset_append_singleton {α : Type} [DecidableEq α] (l : List α) (v : α) :
    (l ++ [v]).toFinset = insert v l.toFinset := by
  ext x
  simp [or_comm]

theorem pop_front_eq {α : Type} [DecidableEq α] {s : FixedSizeSortedHashSet α} (hs : Synced s) :
    s.pop_front = some (s.deque.head?, ⟨s.deque.tail.toFinset, s.deque.tail, s.capacity⟩) := by
  obtain ⟨hset, dq, cap⟩ := s
  obtain ⟨h1, h2⟩ := hs
  simp only at h1 h2
  cases dq with
  | nil => simp [FixedSizeSortedHashSet.pop_front, h1]
  | cons i rest =>
    have hi : i ∈ hset := by rw [h1]; simp
    have hnotin : i ∉ rest.toFinset := by
      rw [List.mem_toFinset]
      exact (List.nodup_cons.mp h2).1
    simp only [FixedSizeSortedHashSet.pop_front, hi, if_pos]
    rw [h1, List.toFinset_cons, Finset.erase_insert hnotin]
    rfl

theorem insert_eq {α : Type} [DecidableEq α] {s : FixedSizeSortedHashSet α} (hs : Synced s) (v : α) :
    s.insert v = some ((if s.deque.length + 1 ≥ s.capacity then s.deque.head? else none),
      ⟨(dequeStep s.capacity s.deque v).toFinset, dequeStep s.capacity s.deque v, s.capacity⟩) := by
  by_cases hc : s.deque.length + 1 ≥ s.capacity
  · simp only [FixedSizeSortedHashSet.insert, dequeStep, if_pos hc, pop_front_eq hs]
    rw [toFinset_append_singleton]
  · simp only [FixedSizeSortedHashSet.insert, dequeStep, if_neg hc]
    rw [toFinset_append_singleton, hs.1]

theorem dequeStep_nodup {α : Type} {C : Nat} {d : List α} {v : α}
    (hnd : d.Nodup) (hv : v ∉ d) : (dequeStep C d v).Nodup := by
  unfold dequeStep
  rw [List.nodup_append]
  refine ⟨?_, List.nodup_singleton v, ?_⟩
  · split
    · exact (List.tail_sublist d).nodup hnd
    · exact hnd
  · intro x hx hx2
    rw [List.mem_singleton] at hx2
    subst hx2
    apply hv
    revert hx
    split
    · exact fun hx => (List.tail_sublist d).subset hx
    · exact fun hx => hx

theorem mem_dequeStep {α : Type} {C : Nat} {d : List α} {v x : α}
    (hx : x ∈ dequeStep C d v) : x ∈ d ∨ x = v := by
  unfold dequeStep at hx
  rw [List.mem_append, List.mem_singleton] at hx
  rcases hx with hx | hx
  · left
    revert hx
    split
    · exact fun hx => (List.tail_sublist d).subset hx
    · exact fun hx => hx
  · right; exact hx

theorem dequeStep_length {α : Type} {C : Nat} {d : List α} (v : α)
    (hd : d.length ≤ max 1 (C - 1)) :
    (dequeStep C d v).length = min (d.length + 1) (max 1 (C - 1)) := by
  unfold dequeStep
  rw [List.length_append]
  simp only [List.length_singleton]
  split
  · rw [List.length_tail]
    omega
  · omega

theorem mem_of_mem_tail {α : Type} {d : List α} {x : α} (h : x ∈ d.tail) : x ∈ d :=
  (List.tail_sublist d).subset h

theorem dedupRun_spec {α : Type} [DecidableEq α] :
    ∀ (ops : List (DedupOp α)) (s : FixedSizeSortedHashSet α),
      Synced s → (insertsOf ops).Nodup → (∀ v ∈ insertsOf ops, v ∉ s.deque) →
      ∃ s1, dedupRun ops s = some s1 ∧ Synced s1 ∧ s1.capacity = s.capacity ∧
        (∀ x ∈ s1.deque, x ∈ s.deque ∨ x ∈ insertsOf ops) ∧
        (s.deque.length ≤ max 1 (s.capacity - 1) → s1.deque.length ≤ max 1 (s.capacity - 1)) := by
  intro ops
  induction ops with
  | nil =>
    intro s hs _ _
    exact ⟨s, rfl, hs, rfl, fun x hx => Or.inl hx, fun h => h⟩
  | cons op ops ih =>
    intro s hs hnd hfresh
    cases op with
    | query v =>
      obtain ⟨s1, h1, h2, h3, h4, h5⟩ := ih s hs hnd hfresh
      refine ⟨s1, ?_, h2, h3, ?_, h5⟩
      · simpa [dedupRun, dedupStep] using h1
      · intro x hx
        exact h4 x hx
    | popOldest =>
      have hpop := pop_front_eq hs
      set t : FixedSizeSortedHashSet α := ⟨s.deque.tail.toFinset, s.deque.tail, s.capacity⟩ with ht
      have hts : Synced t := ⟨rfl, (List.tail_sublist s.deque).nodup hs.2⟩
      obtain ⟨s1, h1, h2, h3, h4, h5⟩ := ih t hts hnd
        (fun v hv hmem => hfresh v hv (mem_of_mem_tail hmem))
      refine ⟨s1, ?_, h2, by rw [h3], ?_, ?_⟩
      · simp only [dedupRun, dedupStep, hpop, Option.map_some]
        exact h1
      · intro x hx
        rcases h4 x hx with hx1 | hx1
        · exact Or.inl (mem_of_mem_tail hx1)
        · exact Or.inr hx1
      · intro hlen
        have : t.deque.length ≤ max 1 (t.capacity - 1) := by
          simp only [ht, List.length_tail]
          omega
        simpa [ht] using h5 this
    | insert v =>
      have hins : insertsOf (DedupOp.insert v :: ops) = v :: insertsOf ops := rfl
      rw [hins] at hnd hfresh
      have hv : v ∉ s.deque := hfresh v (List.mem_cons_self v _)
      have hvi : v ∉ insertsOf ops := (List.nodup_cons.mp hnd).1
      have hnd2 : (insertsOf ops).Nodup := (List.nodup_cons.mp hnd).2
      have hieq := insert_eq hs v
      set t : FixedSizeSortedHashSet α :=
        ⟨(dequeStep s.capacity s.deque v).toFinset, dequeStep s.capacity s.deque v, s.capacity⟩ with ht
      have hts : Synced t := ⟨rfl, dequeStep_nodup hs.2 hv⟩
      have hfresh2 : ∀ u ∈ insertsOf ops, u ∉ t.deque := by
        intro u hu hmem
        rcases mem_dequeStep hmem with hm | hm
        · exact hfresh u (List.mem_cons_of_mem v hu) hm
        · subst hm
          exact hvi hu
      obtain ⟨s1, h1, h2, h3, h4, h5⟩ := ih t hts hnd2 hfresh2
      refine ⟨s1, ?_, h2, by rw [h3], ?_, ?_⟩
      · simp only [dedupRun, dedupStep, hieq, Option.map_some]
        exact h1
      · intro x hx
        rcases h4 x hx with hx1 | hx1
        · rcases mem_dequeStep hx1 with hm | hm
          · exact Or.inl hm
          · exact Or.inr (hm ▸ List.mem_cons_self v _)
        · exact Or.inr (List.mem_cons_of_mem v hx1)
      · intro hlen
        have hstep := dequeStep_length (C := s.capacity) (d := s.deque) v hlen
        have : t.deque.length ≤ max 1 (t.capacity - 1) := by
          simp only [ht, hstep]
          omega
        simpa [ht] using h5 this

theorem dedupRun_insert_list {α : Type} [DecidableEq α] :
    ∀ (xs : List α) (s : FixedSizeSortedHashSet α), Synced s → xs.Nodup →
      (∀ v ∈ xs, v ∉ s.deque) →
      ∃ s1, dedupRun (xs.map DedupOp.insert) s = some s1 ∧
        s1.deque = dequeRun s.capacity s.deque xs ∧ Synced s1 ∧ s1.capacity = s.capacity := by
  intro xs
  induction xs with
  | nil =>
    intro s hs _ _
    exact ⟨s, rfl, rfl, hs, rfl⟩
  | cons v vs ih =>
    intro s hs hnd hfresh
    have hv : v ∉ s.deque := hfresh v (List.mem_cons_self v vs)
    have hieq := insert_eq hs v
    set t : FixedSizeSortedHashSet α :=
      ⟨(dequeStep s.capacity s.deque v).toFinset, dequeStep s.capacity s.deque v, s.capacity⟩ with ht
    have hts : Synced t := ⟨rfl, dequeStep_nodup hs.2 hv⟩
    have hfresh2 : ∀ u ∈ vs, u ∉ t.deque := by
      intro u hu hmem
      rcases mem_dequeStep hmem with hm | hm
      · exact hfresh u (List.mem_cons_of_mem v hu) hm
      · subst hm
        exact (List.nodup_cons.mp hnd).1 hu
    obtain ⟨s1, h1, h2, h3, h4⟩ := ih t hts (List.nodup_cons.mp hnd).2 hfresh2
    refine ⟨s1, ?_, ?_, h3, by rw [h4]⟩
    · simp only [List.map_cons, dedupRun, dedupStep, hieq, Option.map_some]
      exact h1
    · simpa [dequeRun, ht] using h2

theorem dequeStep_sfx {α : Type} (C : Nat) (d : List α) (v : α) :
    ∃ u, u ++ dequeStep C d v = d ++ [v] := by
  unfold dequeStep
  split
  · cases d with
    | nil => exact ⟨[], rfl⟩
    | cons c t => exact ⟨[c], rfl⟩
  · exact ⟨[], rfl⟩

theorem dequeRun_sfx {α : Type} (C : Nat) :
    ∀ (xs d : List α), ∃ u, u ++ dequeRun C d xs = d ++ xs := by
  intro xs
  induction xs with
  | nil =>
    intro d
    exact ⟨[], by simp [dequeRun]⟩
  | cons v vs ih =>
    intro d
    obtain ⟨u1, hu1⟩ := ih (dequeStep C d v)
    obtain ⟨u0, hu0⟩ := dequeStep_sfx C d v
    refine ⟨u0 ++ u1, ?_⟩
    calc (u0 ++ u1) ++ dequeRun C d (v :: vs)
        = u0 ++ (u1 ++ dequeRun C (dequeStep C d v) vs) := by simp [dequeRun, List.append_assoc]
      _ = u0 ++ (dequeStep C d v ++ vs) := by rw [hu1]
      _ = (u0 ++ dequeStep C d v) ++ vs := by rw [List.append_assoc]
      _ = (d ++ [v]) ++ vs := by rw [hu0]
      _ = d ++ (v :: vs) := by simp

theorem dequeRun_length {α : Type} (C : Nat) :
    ∀ (xs d : List α), d.length ≤ max 1 (C - 1) →
      (dequeRun C d xs).length = min (d.length + xs.length) (max 1 (C - 1)) := by
  intro xs
  induction xs with
  | nil =>
    intro d hd
    simp only [dequeRun, List.length_nil]
    omega
  | cons v vs ih =>
    intro d hd
    have hstep := dequeStep_length (C := C) (d := d) v hd
    have hle : (dequeStep C d v).length ≤ max 1 (C - 1) := by omega
    have := ih (dequeStep C d v) hle
    simp only [dequeRun, this, hstep, List.length_cons]
    omega

theorem eq_drop_of_sfx {α : Type} {l t : List α} (u : List α) (h : u ++ l = t) :
    l = t.drop (t.length - l.length) := by
  subst h
  rw [List.length_append]
  have : u.length + l.length - l.length = u.length := by omega
  rw [this, List.drop_left]

/-! ### Claim C1 -/

/-- C1 (amended).  For capacity `C ≥ 1` and `C+1` pairwise-distinct
inserted items, the members afterwards are exactly the most recent
`max 1 (C-1)` items — `C-1`, not `C`, for `C ≥ 2`, because `insert`
already evicts when the pre-insert length `L` satisfies `L + 1 ≥ C`.
Moreover, from any synced state, `insert` returns the popped front of the
order queue exactly when `L + 1 ≥ C` (and `none` when `L + 1 < C`). -/
theorem dedup_insert_members_amended {α : Type} [DecidableEq α] (C : Nat) (hC : 1 ≤ C)
    (xs : List α) (hlen : xs.length = C + 1) (hnd : xs.Nodup) :
    (∃ s1, dedupRun (xs.map DedupOp.insert) (FixedSizeSortedHashSet.with_capacity C) = some s1 ∧
      ∀ v, s1.contains v = true ↔ v ∈ xs.drop (C + 1 - max 1 (C - 1))) ∧
    (∀ (s : FixedSizeSortedHashSet α) (v : α), Synced s →
      (s.insert v).map Prod.fst =
        some (if s.deque.length + 1 ≥ s.capacity then s.deque.head? else none)) := by
  constructor
  · obtain ⟨s1, h1, h2, h3, h4⟩ := dedupRun_insert_list xs
      (FixedSizeSortedHashSet.with_capacity C) (synced_with_capacity C) hnd
      (by intro v _ hmem; simp [FixedSizeSortedHashSet.with_capacity] at hmem)
    refine ⟨s1, h1, ?_⟩
    have hdq : s1.deque = dequeRun C [] xs := by
      simpa [FixedSizeSortedHashSet.with_capacity] using h2
    obtain ⟨u, hu⟩ := dequeRun_sfx C xs ([] : List α)
    rw [List.nil_append] at hu
    have hL : (dequeRun C ([] : List α) xs).length = max 1 (C - 1) := by
      have := dequeRun_length C xs ([] : List α) (by simp)
      rw [hlen] at this
      simp only [List.length_nil, Nat.zero_add] at this
      omega
    have hdrop : dequeRun C ([] : List α) xs = xs.drop (C + 1 - max 1 (C - 1)) := by
      have := eq_drop_of_sfx u hu
      rw [hL, hlen] at this
      exact this
    intro v
    rw [FixedSizeSortedHashSet.contains, decide_eq_true_iff, h3.1, List.mem_toFinset,
      hdq, hdrop]
  · intro s v hs
    rw [insert_eq hs]
    rfl

/-- Witness for C1's amended theorem at `C = 2`, `xs = [1, 2, 3]`. -/
theorem dedup_insert_members_amended_witness :
    (∃ s1, dedupRun ([1, 2, 3].map DedupOp.insert) (FixedSizeSortedHashSet.with_capacity 2) = some s1 ∧
      ∀ v, s1.contains v = true ↔ v ∈ [1, 2, 3].drop (2 + 1 - max 1 (2 - 1))) ∧
    (∀ (s : FixedSizeSortedHashSet Nat) (v : Nat), Synced s →
      (s.insert v).map Prod.fst =
        some (if s.deque.length + 1 ≥ s.capacity then s.deque.head? else none)) :=
  dedup_insert_members_amended 2 (by decide) [1, 2, 3] (by decide) (by decide)

/-- C1 as stated is false: with capacity 2 and the distinct items
`[1, 2, 3]`, the claim predicts that the most recent 2 items (`2` and `3`)
are members, but `2` has already been evicted (`contains 2` is `false`). -/
theorem dedup_insert_members_original_refuted :
    (dedupRun ([1, 2, 3].map DedupOp.insert) (FixedSizeSortedHashSet.with_capacity 2)).map
      (fun s => (s.contains 2, s.contains 3)) = some (false, true) := by
  rfl

/-! ### Claim C2 -/

/-- C2 (amended).  For capacity `C ≥ 1` and an operation sequence whose
inserted values are pairwise distinct, after every operation the hash-set
cardinality equals the deque length and neither exceeds the capacity. -/
theorem dedup_sync_invariant_amended {α : Type} [DecidableEq α] (C : Nat) (hC : 1 ≤ C)
    (ops : List (DedupOp α)) (hnd : (insertsOf ops).Nodup) (n : Nat) :
    ∃ s1, dedupRun (ops.take n) (FixedSizeSortedHashSet.with_capacity C) = some s1 ∧
      s1.hash_set.card = s1.deque.length ∧ s1.deque.length ≤ C := by
  have hsub : (insertsOf (ops.take n)).Nodup :=
    hnd.sublist ((List.take_sublist n ops).filterMap _)
  obtain ⟨s1, h1, h2, h3, _, h5⟩ := dedupRun_spec (ops.take n)
    (FixedSizeSortedHashSet.with_capacity C) (synced_with_capacity C) hsub
    (by intro v _ hmem; simp [FixedSizeSortedHashSet.with_capacity] at hmem)
  refine ⟨s1, h1, ?_, ?_⟩
  · rw [h2.1]
    exact List.toFinset_card_of_nodup h2.2
  · have := h5 (by simp [FixedSizeSortedHashSet.with_capacity])
    simp only [h3, FixedSizeSortedHashSet.with_capacity] at this ⊢
    omega

/-- Witness for C2's amended theorem on a concrete mixed sequence. -/
theorem dedup_sync_invariant_amended_witness :
    ∃ s1, dedupRun (([DedupOp.insert 1, DedupOp.insert 2, DedupOp.popOldest,
        DedupOp.query 1] : List (DedupOp Nat)).take 4)
      (FixedSizeSortedHashSet.with_capacity 3) = some s1 ∧
      s1.hash_set.card = s1.deque.length ∧ s1.deque.length ≤ 3 :=
  dedup_sync_invariant_amended 3 (by decide)
    [DedupOp.insert 1, DedupOp.insert 2, DedupOp.popOldest, DedupOp.query 1] (by decide) 4

/-- C2 as stated is false: it quantifies over sequences that may insert
the same value twice and over every capacity.  Inserting `1` twice with
capacity 3 leaves one member but two queue entries, and with capacity 0 a
single insert stores one item, exceeding the capacity. -/
theorem dedup_sync_invariant_original_refuted :
    (dedupRun [DedupOp.insert 1, DedupOp.insert 1] (FixedSizeSortedHashSet.with_capacity 3)).map
      (fun s => (s.hash_set.card, s.deque.length)) = some (1, 2) ∧
    (dedupRun [DedupOp.insert 1] (FixedSizeSortedHashSet.with_capacity 0)).map
      (fun s => s.deque.length) = some 1 := by
  exact ⟨rfl, rfl⟩

/-! ### Claim C10 -/

/-- C10.  For every capacity and every sequence of operations whose
inserted values are pairwise distinct, no operation panics: in particular
the desynchronization branch of `pop_front` (a popped element missing
from the hash set) is never reached. -/
theorem dedup_no_desync_panic {α : Type} [DecidableEq α] (C : Nat) (ops : List (DedupOp α))
    (hnd : (insertsOf ops).Nodup) :
    ∃ s1, dedupRun ops (FixedSizeSortedHashSet.with_capacity C) = some s1 := by
  obtain ⟨s1, h1, _⟩ := dedupRun_spec ops (FixedSizeSortedHashSet.with_capacity C)
    (synced_with_capacity C) hnd
    (by intro v _ hmem; simp [FixedSizeSortedHashSet.with_capacity] at hmem)
  exact ⟨s1, h1⟩

/-- Witness for C10 on a concrete sequence that pops past empty. -/
theorem dedup_no_desync_panic_witness :
    ∃ s1, dedupRun ([DedupOp.insert 1, DedupOp.insert 2, DedupOp.popOldest,
        DedupOp.popOldest, DedupOp.popOldest] : List (DedupOp Nat))
      (FixedSizeSortedHashSet.with_capacity 2) = some s1 :=
  dedup_no_desync_panic 2 _ (by decide)

/-! ### Claim C3 -/

theorem durationMatchAt_exact (d h m sec : List Char)
    (hd : d ≠ []) (hh : h ≠ []) (hm : m ≠ []) (hsec : sec ≠ [])
    (had : ∀ c ∈ d, isAsciiDigit c = true) (hah : ∀ c ∈ h, isAsciiDigit c = true)
    (ham : ∀ c ∈ m, isAsciiDigit c = true) (has : ∀ c ∈ sec, isAsciiDigit c = true) :
    durationMatchAt (d ++ (" days ".data ++ (h ++ ("h:".data ++
        (m ++ ("m:".data ++ (sec ++ "s".data))))))) = some (d, h, m, sec) := by
  have h1 : munch1 isAsciiDigit (d ++ (" days ".data ++ (h ++ ("h:".data ++
      (m ++ ("m:".data ++ (sec ++ "s".data))))))) = some (d, " days ".data ++ (h ++ ("h:".data ++
      (m ++ ("m:".data ++ (sec ++ "s".data)))))) :=
    munch1_exact hd had (by intro y hy; cases hy; decide)
  have h2 : lit " days ".data (" days ".data ++ (h ++ ("h:".data ++
      (m ++ ("m:".data ++ (sec ++ "s".data)))))) = some (h ++ ("h:".data ++
      (m ++ ("m:".data ++ (sec ++ "s".data))))) := lit_exact _ _
  have h3 : munch1 isAsciiDigit (h ++ ("h:".data ++ (m ++ ("m:".data ++ (sec ++ "s".data))))) =
      some (h, "h:".data ++ (m ++ ("m:".data ++ (sec ++ "s".data)))) :=
    munch1_exact hh hah (by intro y hy; cases hy; decide)
  have h4 : lit "h:".data ("h:".data ++ (m ++ ("m:".data ++ (sec ++ "s".data)))) =
      some (m ++ ("m:".data ++ (sec ++ "s".data))) := lit_exact _ _
  have h5 : munch1 isAsciiDigit (m ++ ("m:".data ++ (sec ++ "s".data))) =
      some (m, "m:".data ++ (sec ++ "s".data)) :=
    munch1_exact hm ham (by intro y hy; cases hy; decide)
  have h6 : lit "m:".data ("m:".data ++ (sec ++ "s".data)) = some (sec ++ "s".data) :=
    lit_exact _ _
  have h7 : munch1 isAsciiDigit (sec ++ "s".data) = some (sec, "s".data) :=
    munch1_exact hsec has (by intro y hy; cases hy; decide)
  have h8 : lit "s".data "s".data = some [] := by
    have := lit_exact "s".data []
    rwa [List.append_nil] at this
  simp only [durationMatchAt, h1, h2, h3, h4, h5, h6, h7, h8, Option.bind_eq_bind,
    Option.some_bind]
  rfl

/-- C3 (amended).  An input containing (anywhere — the pattern is
unanchored, so the input need not have the literal shape overall) a
substring `<D> days <H>h:<M>m:<S>s` with digit components each fitting a
`u64` decodes to `(D*86400 + H*3600 + M*60 + S) mod 2^64` seconds; in
particular every input that is exactly of that shape does.  A
non-matching input does not produce a `MalformedField` error as claimed:
the codec never produces one — it aborts (`unwrap` panic) instead. -/
theorem duration_codec_amended :
    (∀ d h m sec : List Char,
      d ≠ [] → h ≠ [] → m ≠ [] → sec ≠ [] →
      (∀ c ∈ d, isAsciiDigit c = true) → (∀ c ∈ h, isAsciiDigit c = true) →
      (∀ c ∈ m, isAsciiDigit c = true) → (∀ c ∈ sec, isAsciiDigit c = true) →
      digitsToNat d < 18446744073709551616 → digitsToNat h < 18446744073709551616 →
      digitsToNat m < 18446744073709551616 → digitsToNat sec < 18446744073709551616 →
      duration_deserializer (String.mk (d ++ (" days ".data ++ (h ++ ("h:".data ++
          (m ++ ("m:".data ++ (sec ++ "s".data)))))))) =
        .ok ((digitsToNat d * 86400 + digitsToNat h * 3600 + digitsToNat m * 60 +
          digitsToNat sec) % 18446744073709551616)) ∧
    (∀ s : String, isMalformedFieldError (duration_deserializer s) = false) := by
  constructor
  · intro d h m sec hd hh hm hsec had hah ham has bd bh bm bs
    have hmatch := durationMatchAt_exact d h m sec hd hh hm hsec had hah ham has
    have hsearch := search_of_matchAt durationMatchAt _ _ hmatch
    have p1 : parseU64 d = some (digitsToNat d) := by simp [parseU64, bd]
    have p2 : parseU64 h = some (digitsToNat h) := by simp [parseU64, bh]
    have p3 : parseU64 m = some (digitsToNat m) := by simp [parseU64, bm]
    have p4 : parseU64 sec = some (digitsToNat sec) := by simp [parseU64, bs]
    simp only [duration_deserializer, hsearch, p1, p2, p3, p4]
    congr 1
    ring_nf
  · intro s
    unfold duration_deserializer
    split
    · rfl
    · split
      · rfl
      · rfl

/-- Witness for C3's amended theorem at `"2 days 03h:04m:05s"`. -/
theorem duration_codec_amended_witness :
    duration_deserializer (String.mk ("2".data ++ (" days ".data ++ ("03".data ++ ("h:".data ++
        ("04".data ++ ("m:".data ++ ("05".data ++ "s".data)))))))) =
      .ok ((digitsToNat "2".data * 86400 + digitsToNat "03".data * 3600 +
        digitsToNat "04".data * 60 + digitsToNat "05".data) % 18446744073709551616) :=
  duration_codec_amended.1 "2".data "03".data "04".data "05".data
    (by decide) (by decide) (by decide) (by decide)
    (by decide) (by decide) (by decide) (by decide)
    (by decide) (by decide) (by decide) (by decide)

/-- C3 as stated is false on two counts: a non-matching input aborts with
a panic, not a `MalformedField` error, and a string that is not of the
literal shape can still decode because the pattern is unanchored. -/
theorem duration_codec_original_refuted :
    duration_deserializer "garbage" = .error (.panicked "called Option::unwrap on a None value") ∧
    isMalformedFieldError (duration_deserializer "garbage") = false ∧
    duration_deserializer "x1 days 2h:3m:4s tail" = .ok 93784 :=
  ⟨rfl, rfl, rfl⟩

/-! ### Claim C4 -/

/-- C4.  The lock token map sends exactly `"Locked"` to `true`; the
modulation map sends `"QAM256"`, `"OFDM PLC"`, `"SC-QAM"` to their
constructors and everything else to `Unknown` (totally — it cannot fail);
a record matching neither channel grammar (downstream is tried first) is
a `MalformedField` error naming the record text; and a concrete
downstream record with lock token `"Locked"` and an unrecognized
modulation token decodes with `locked = true` and `Unknown` rather than
failing. -/
theorem channel_codec_tokens_and_errors :
    (∀ t : List Char, lockOf t = true ↔ t = "Locked".data) ∧
    (modulationOf "QAM256".data = Modulation.qam256 ∧
      modulationOf "OFDM PLC".data = Modulation.ofdmplc ∧
      modulationOf "SC-QAM".data = Modulation.scqam ∧
      (∀ t : List Char, t ≠ "QAM256".data → t ≠ "OFDM PLC".data → t ≠ "SC-QAM".data →
        modulationOf t = Modulation.unknown)) ∧
    (∀ line : List Char, search downstreamMatchAt line = none →
      search upstreamMatchAt line = none →
      channelLineDecode line =
        .error (.malformedField ("Unable to match " ++ String.mk line ++
          " with any channel regex"))) ∧
    channelLineDecode "1^Locked^FOO 42^2^300^30^40^5^6^".data =
      .ok (.downstream ⟨2, Modulation.unknown, true, 300, 30, 40, 5, 6⟩) := by
  refine ⟨?_, ⟨rfl, rfl, rfl, ?_⟩, ?_, ?_⟩
  · intro t
    exact decide_eq_true_iff
  · intro t h1 h2 h3
    simp [modulationOf, h1, h2, h3]
  · intro line hdown hup
    simp only [channelLineDecode, hdown, hup]
  · rfl

/-- Witness for C4's theorem: a record matching neither grammar. -/
theorem channel_codec_tokens_and_errors_witness :
    channelLineDecode "zzz".data =
      .error (.malformedField ("Unable to match " ++ String.mk "zzz".data ++
        " with any channel regex")) :=
  channel_codec_tokens_and_errors.2.2.1 "zzz".data rfl rfl

/-! ### Claim C5 -/

/-- C5.  The log-line codec splits on `"}-{"` and decodes each record;
the level-digit map is `3→Error, 4→Warn, 5→Info, 6→Debug`, anything else
`Error`; and the spec's example input decodes to exactly the two stated
records (Info at 2023-02-01T08:09:10 UTC with message `"hello"`, then
Error at 2023-02-01T09:09:10 UTC with message `"world"`). -/
theorem log_codec_levels_and_example :
    (levelOfDigit 3 = Level.error ∧ levelOfDigit 4 = Level.warn ∧ levelOfDigit 5 = Level.info ∧
      levelOfDigit 6 = Level.debug ∧
      (∀ n : Nat, n ≠ 3 → n ≠ 4 → n ≠ 5 → n ≠ 6 → levelOfDigit n = Level.error)) ∧
    (∀ s : String, log_parser_model s = mapExcept logLineDecode (logSplit s.data)) ∧
    log_parser_model "0^08:09:10^01/02/2023^5^hello\x7d-\x7b0^09:09:10^01/02/2023^3^world" =
      .ok [⟨⟨2023, 2, 1, 8, 9, 10⟩, Level.info, "hello"⟩,
        ⟨⟨2023, 2, 1, 9, 9, 10⟩, Level.error, "world"⟩] := by
  refine ⟨⟨rfl, rfl, rfl, rfl, ?_⟩, fun s => rfl, ?_⟩
  · intro n h3 h4 h5 h6
    simp [levelOfDigit, h3, h4, h5, h6]
  · rfl

/-- Witness for C5's theorem: an out-of-table digit maps to `Error`. -/
theorem log_codec_levels_and_example_witness :
    levelOfDigit 7 = Level.error :=
  log_codec_levels_and_example.1.2.2.2.2 7 (by decide) (by decide) (by decide) (by decide)

/-! ### Claims C6–C9 (auth/session client) -/

theorem data_mk (l : List Char) : (String.mk l).data = l := rfl

theorem toLEBytes_lt {n x : Nat} : ∀ b ∈ toLEBytes n x, b < 256 := by
  intro b hb
  simp only [toLEBytes, List.mem_map, List.mem_range] at hb
  obtain ⟨i, _, rfl⟩ := hb
  exact Nat.mod_lt _ (by norm_num)

theorem mem_md5_lt {msg : List Nat} : ∀ b ∈ md5 msg, b < 256 := by
  intro b hb
  simp only [md5, List.mem_append] at hb
  rcases hb with ((hb | hb) | hb) | hb <;> exact toLEBytes_lt b hb

theorem mem_hmacMd5_lt {key msg : List Nat} : ∀ b ∈ hmacMd5 key msg, b < 256 := by
  intro b hb
  simp only [hmacMd5] at hb
  exact mem_md5_lt b hb

theorem hexDigit_mem {n : Nat} (h : n < 16) : hexDigit n ∈ "0123456789ABCDEF".data := by
  interval_cases n <;> decide

theorem hexEncodeUpper_chars {bs : List Nat} (hb : ∀ b ∈ bs, b < 256) :
    ∀ c ∈ (hexEncodeUpper bs).data, c ∈ "0123456789ABCDEF".data := by
  intro c hc
  simp only [hexEncodeUpper, data_mk, List.mem_flatten, List.mem_map] at hc
  obtain ⟨l, ⟨b, hbmem, rfl⟩, hcl⟩ := hc
  have hblt := hb b hbmem
  simp only [List.mem_cons, List.mem_singleton, List.not_mem_nil, or_false] at hcl
  rcases hcl with h | h
  · subst h
    exact hexDigit_mem (by omega)
  · subst h
    exact hexDigit_mem (Nat.mod_lt _ (by norm_num))

theorem hex_hmac_md5_chars (key data : String) :
    ∀ c ∈ (hex_hmac_md5 key data).data, c ∈ "0123456789ABCDEF".data :=
  hexEncodeUpper_chars mem_hmacMd5_lt

/-- C6.  Phase-2 login stores `HMAC-MD5(key = public_key ++ password,
msg = challenge)`, hex uppercase (its characters are hex digits with
uppercase letters), as the session private key; sends
`LoginPassword = HMAC-MD5(key = that derived key, msg = challenge)`, hex
uppercase, among the phase-2 parameters; and stores the phase-1 cookie as
the session cookie before the phase-2 request is signed — the request's
`Cookie` header is already built from the new cookie and the derived
key. -/
theorem login_key_derivation (client : SOAPClient)
    (username password public_key challenge cookie : String) (time httpStatus : Nat)
    (reply : LoginWithChallengeResponse) :
    ((login_with_challenge client username password public_key challenge cookie
        time httpStatus reply).1.private_key =
      hex_hmac_md5 (public_key ++ password) challenge) ∧
    ((login_with_challenge client username password public_key challenge cookie
        time httpStatus reply).1.cookie = cookie) ∧
    ((login_with_challenge client username password public_key challenge cookie
        time httpStatus reply).2.1.body = ("Login",
      [("Action", "login"), ("Username", username),
       ("LoginPassword", hex_hmac_md5 (hex_hmac_md5 (public_key ++ password) challenge) challenge),
       ("Captcha", ""), ("PrivateLogin", "LoginPassword")])) ∧
    ((login_with_challenge client username password public_key challenge cookie
        time httpStatus reply).2.1.cookieHeader =
      "Secure; uid=" ++ cookie ++ "; PrivateKey=" ++
        hex_hmac_md5 (public_key ++ password) challenge) ∧
    (∀ c ∈ (hex_hmac_md5 (public_key ++ password) challenge).data,
      c ∈ "0123456789ABCDEF".data) :=
  ⟨rfl, rfl, rfl, rfl, hex_hmac_md5_chars _ _⟩

/-- Witness for C6 at concrete inputs. -/
theorem login_key_derivation_witness :
    ((login_with_challenge (SOAPClient.new "http://m") "admin" "pw" "pub" "chal" "cook"
        7 200 ⟨"OK"⟩).1.private_key = hex_hmac_md5 ("pub" ++ "pw") "chal") ∧
    ((login_with_challenge (SOAPClient.new "http://m") "admin" "pw" "pub" "chal" "cook"
        7 200 ⟨"OK"⟩).1.cookie = "cook") ∧
    ((login_with_challenge (SOAPClient.new "http://m") "admin" "pw" "pub" "chal" "cook"
        7 200 ⟨"OK"⟩).2.1.body = ("Login",
      [("Action", "login"), ("Username", "admin"),
       ("LoginPassword", hex_hmac_md5 (hex_hmac_md5 ("pub" ++ "pw") "chal") "chal"),
       ("Captcha", ""), ("PrivateLogin", "LoginPassword")])) ∧
    ((login_with_challenge (SOAPClient.new "http://m") "admin" "pw" "pub" "chal" "cook"
        7 200 ⟨"OK"⟩).2.1.cookieHeader =
      "Secure; uid=" ++ "cook" ++ "; PrivateKey=" ++ hex_hmac_md5 ("pub" ++ "pw") "chal") ∧
    (∀ c ∈ (hex_hmac_md5 ("pub" ++ "pw") "chal").data, c ∈ "0123456789ABCDEF".data) :=
  login_key_derivation (SOAPClient.new "http://m") "admin" "pw" "pub" "chal" "cook" 7 200 ⟨"OK"⟩

/-- C7.  Every signed action's request carries the auth header
`HMAC-MD5(key = private key, msg = millis ++ domain ++ action)` in
uppercase hex followed by a space and the same timestamp, the literal
`Cookie` header built from the session cookie and private key, and a
body nesting the parameter map one level under the action name. -/
theorem signed_request_shape {T : Type} (inst : HasResult T) (client : SOAPClient)
    (time : Nat) (action : String) (params : List (String × String)) (httpStatus : Nat)
    (reply : T) :
    ((@send_soap_action T inst client time action params httpStatus reply).2.1.hnapAuth =
      hex_hmac_md5 client.private_key
        (toString time ++ ("http://purenetworks.com/HNAP1/" ++ action)) ++ " " ++
        toString time) ∧
    ((@send_soap_action T inst client time action params httpStatus reply).2.1.cookieHeader =
      "Secure; uid=" ++ client.cookie ++ "; PrivateKey=" ++ client.private_key) ∧
    ((@send_soap_action T inst client time action params httpStatus reply).2.1.body =
      (action, params)) ∧
    ((@send_soap_action T inst client time action params httpStatus reply).2.1.soapActionHeader =
      "http://purenetworks.com/HNAP1/" ++ action) :=
  ⟨rfl, rfl, rfl, rfl⟩

/-- Witness for C7 at concrete inputs. -/
theorem signed_request_shape_witness :
    ((send_soap_action (SOAPClient.new "http://m") 1700000000000 "GetMultipleHNAPs" []
        200 (⟨"OK"⟩ : LoginWithChallengeResponse)).2.1.hnapAuth =
      hex_hmac_md5 (SOAPClient.new "http://m").private_key
        (toString 1700000000000 ++ ("http://purenetworks.com/HNAP1/" ++ "GetMultipleHNAPs")) ++
        " " ++ toString 1700000000000) ∧
    ((send_soap_action (SOAPClient.new "http://m") 1700000000000 "GetMultipleHNAPs" []
        200 (⟨"OK"⟩ : LoginWithChallengeResponse)).2.1.cookieHeader =
      "Secure; uid=" ++ (SOAPClient.new "http://m").cookie ++ "; PrivateKey=" ++
        (SOAPClient.new "http://m").private_key) ∧
    ((send_soap_action (SOAPClient.new "http://m") 1700000000000 "GetMultipleHNAPs" []
        200 (⟨"OK"⟩ : LoginWithChallengeResponse)).2.1.body = ("GetMultipleHNAPs", [])) ∧
    ((send_soap_action (SOAPClient.new "http://m") 1700000000000 "GetMultipleHNAPs" []
        200 (⟨"OK"⟩ : LoginWithChallengeResponse)).2.1.soapActionHeader =
      "http://purenetworks.com/HNAP1/" ++ "GetMultipleHNAPs") :=
  @signed_request_shape LoginWithChallengeResponse _ (SOAPClient.new "http://m") 1700000000000
    "GetMultipleHNAPs" [] 200 ⟨"OK"⟩

/-- C8 (amended).  With HTTP 200, the phase-2 dispatch maps `"OK"` to
success, `"FAILED"` to the credential error, `"LOCKUP"` to the rate-limit
error, `"REBOOT"` to the reboot error, `"OK_CHANGED"` to the
settings-reset error, and any other status — except `"ERROR"`, which the
generic envelope check intercepts before the dispatch and turns into the
send-level abort — to the unrecognized-behavior error; no status other
than `"OK"` yields success, and the derived key and cookie are kept
regardless of the status. -/
theorem login_status_dispatch_amended (client : SOAPClient)
    (username password public_key challenge cookie : String) (time : Nat)
    (reply : LoginWithChallengeResponse) :
    (reply.result = "OK" → (login_with_challenge client username password public_key challenge
        cookie time 200 reply).2.2 = .ok reply) ∧
    (reply.result = "FAILED" → (login_with_challenge client username password public_key challenge
        cookie time 200 reply).2.2 = .error "Username or password error") ∧
    (reply.result = "LOCKUP" → (login_with_challenge client username password public_key challenge
        cookie time 200 reply).2.2 = .error "Max number of login attempts reached") ∧
    (reply.result = "REBOOT" → (login_with_challenge client username password public_key challenge
        cookie time 200 reply).2.2 =
        .error "Account locked, reboot required to re-enable account") ∧
    (reply.result = "OK_CHANGED" → (login_with_challenge client username password public_key
        challenge cookie time 200 reply).2.2 =
        .error "May need to reset login settings, idk haven't actually hit this") ∧
    (reply.result ≠ "OK_CHANGED" → reply.result ≠ "FAILED" → reply.result ≠ "LOCKUP" →
      reply.result ≠ "REBOOT" → reply.result ≠ "OK" → reply.result ≠ "ERROR" →
      (login_with_challenge client username password public_key challenge cookie time 200
        reply).2.2 = .error "Unknown response from modem") ∧
    (∀ r, (login_with_challenge client username password public_key challenge cookie time 200
        reply).2.2 = .ok r → reply.result = "OK") ∧
    ((login_with_challenge client username password public_key challenge cookie time 200
        reply).1.private_key = hex_hmac_md5 (public_key ++ password) challenge ∧
      (login_with_challenge client username password public_key challenge cookie time 200
        reply).1.cookie = cookie) := by
  refine ⟨?_, ?_, ?_, ?_, ?_, ?_, ?_, rfl, rfl⟩
  · intro h
    simp [login_with_challenge, send_soap_action, HasResult.get_result, h]
  · intro h
    simp [login_with_challenge, send_soap_action, HasResult.get_result, h]
  · intro h
    simp [login_with_challenge, send_soap_action, HasResult.get_result, h]
  · intro h
    simp [login_with_challenge, send_soap_action, HasResult.get_result, h]
  · intro h
    simp [login_with_challenge, send_soap_action, HasResult.get_result, h]
  · intro h1 h2 h3 h4 h5 h6
    simp [login_with_challenge, send_soap_action, HasResult.get_result, h1, h2, h3, h4, h5, h6]
  · intro r hr
    by_contra hne
    by_cases h1 : reply.result = "OK_CHANGED"
    · simp [login_with_challenge, send_soap_action, HasResult.get_result, h1] at hr
    · by_cases h2 : reply.result = "FAILED"
      · simp [login_with_challenge, send_soap_action, HasResult.get_result, h2] at hr
      · by_cases h3 : reply.result = "LOCKUP"
        · simp [login_with_challenge, send_soap_action, HasResult.get_result, h3] at hr
        · by_cases h4 : reply.result = "REBOOT"
          · simp [login_with_challenge, send_soap_action, HasResult.get_result, h4] at hr
          · by_cases h5 : reply.result = "ERROR"
            · simp [login_with_challenge, send_soap_action, HasResult.get_result, h5] at hr
            · simp [login_with_challenge, send_soap_action, HasResult.get_result,
                h1, h2, h3, h4, h5, hne] at hr

/-- Witness for C8's amended theorem: an unknown status and the
rate-limit status at concrete inputs. -/
theorem login_status_dispatch_amended_witness :
    ((login_with_challenge (SOAPClient.new "http://m") "admin" "pw" "pub" "chal" "cook"
        7 200 ⟨"WEIRD"⟩).2.2 = .error "Unknown response from modem") ∧
    ((login_with_challenge (SOAPClient.new "http://m") "admin" "pw" "pub" "chal" "cook"
        7 200 ⟨"LOCKUP"⟩).2.2 = .error "Max number of login attempts reached") :=
  ⟨(login_status_dispatch_amended (SOAPClient.new "http://m") "admin" "pw" "pub" "chal" "cook"
      7 ⟨"WEIRD"⟩).2.2.2.2.2.1 (by decide) (by decide) (by decide) (by decide) (by decide)
      (by decide),
   (login_status_dispatch_amended (SOAPClient.new "http://m") "admin" "pw" "pub" "chal" "cook"
      7 ⟨"LOCKUP"⟩).2.2.1 rfl⟩

/-- C8 as stated is false for the status value `"ERROR"`: the generic
envelope check in `send_soap_action` intercepts it, so phase-2 ends in
the send-level abort (`expect`) rather than in the claimed
unrecognized-behavior error. -/
theorem login_status_dispatch_original_refuted :
    ((login_with_challenge (SOAPClient.new "http://m") "admin" "pw" "pub" "chal" "cook"
        7 200 ⟨"ERROR"⟩).2.2 = .error "Unable to login with calculated credentials") ∧
    ("Unable to login with calculated credentials" : String) ≠ "Unknown response from modem" :=
  ⟨rfl, by decide⟩

/-- C9.  `metrics()`, `logs()` and the underlying `send_soap_action`
leave the session's private key and cookie unchanged, whatever reply or
HTTP status the device returns. -/
theorem polling_preserves_session (client : SOAPClient) (time httpStatus : Nat)
    (replyM : GetMultipleHNAPsMetricsResponse) (replyL : GetMultipleHNAPsLogsResponse) :
    ((metrics client time httpStatus replyM).1.private_key = client.private_key ∧
      (metrics client time httpStatus replyM).1.cookie = client.cookie) ∧
    ((logs client time httpStatus replyL).1.private_key = client.private_key ∧
      (logs client time httpStatus replyL).1.cookie = client.cookie) ∧
    (∀ (T : Type) (inst : HasResult T) (action : String) (params : List (String × String))
      (reply : T),
      (@send_soap_action T inst client time action params httpStatus reply).1 = client) :=
  ⟨⟨rfl, rfl⟩, ⟨rfl, rfl⟩, fun _ _ _ _ _ => rfl⟩

/-- Witness for C9 at concrete inputs. -/
theorem polling_preserves_session_witness :
    ((metrics (SOAPClient.new "http://m") 7 500
        ⟨⟨"", "", "", "", "", "E"⟩, ⟨"", "", "", "E"⟩, ⟨0, ⟨2023, 1, 1, 0, 0, 0⟩, "", "E"⟩,
         ⟨[], "E"⟩, ⟨[], "E"⟩, ⟨"", "", "", "", "", "", "", "", "", "", "E"⟩, "E"⟩).1.private_key =
      (SOAPClient.new "http://m").private_key ∧
      (metrics (SOAPClient.new "http://m") 7 500
        ⟨⟨"", "", "", "", "", "E"⟩, ⟨"", "", "", "E"⟩, ⟨0, ⟨2023, 1, 1, 0, 0, 0⟩, "", "E"⟩,
         ⟨[], "E"⟩, ⟨[], "E"⟩, ⟨"", "", "", "", "", "", "", "", "", "", "E"⟩, "E"⟩).1.cookie =
      (SOAPClient.new "http://m").cookie) ∧
    ((logs (SOAPClient.new "http://m") 7 500 ⟨⟨[], "OK"⟩, "OK"⟩).1.private_key =
      (SOAPClient.new "http://m").private_key ∧
      (logs (SOAPClient.new "http://m") 7 500 ⟨⟨[], "OK"⟩, "OK"⟩).1.cookie =
      (SOAPClient.new "http://m").cookie) ∧
    (∀ (T : Type) (inst : HasResult T) (action : String) (params : List (String × String))
      (reply : T),
      (@send_soap_action T inst (SOAPClient.new "http://m") 7 action params 500 reply).1 =
        SOAPClient.new "http://m") :=
  polling_preserves_session (SOAPClient.new "http://m") 7 500
    ⟨⟨"", "", "", "", "", "E"⟩, ⟨"", "", "", "E"⟩, ⟨0, ⟨2023, 1, 1, 0, 0, 0⟩, "", "E"⟩,
     ⟨[], "E"⟩, ⟨[], "E"⟩, ⟨"", "", "", "", "", "", "", "", "", "", "E"⟩, "E"⟩
    ⟨⟨[], "OK"⟩, "OK"⟩
